import Mathlib

/-!
Verification of the nuts release server core (`lib/nuts.js` and its
collaborators).  The handlers of `lib/nuts.js` are embedded shallowly as
pure Lean functions over an explicit release index; the collaborator
modules that are not part of the sources (`lib/versions.js`,
`lib/utils/platforms.js`, `lib/utils/notes.js`, `lib/utils/win-releases.js`)
are modelled from the specification, each marked `Modelled from the spec`.
JavaScript strings are Lean `String`s, thrown `Error`s become an explicit
error type, and the asynchronous asset-serving path is additionally given
a small interleaving semantics to reason about concurrent requests.
-/

namespace Nuts

/-! ### Character-list string helpers

Total, kernel-computable replacements for the JavaScript string
operations used by the handlers (split, join, substring test, suffix
test, decimal parsing). -/

/-- Split a character list at every occurrence of the separator `c`;
always returns at least one (possibly empty) group, like JS `split`. -/
def splitCh (c : Char) : List Char → List (List Char)
  | [] => [[]]
  | x :: xs =>
    match splitCh c xs with
    | [] => [[]]
    | g :: gs => if x = c then [] :: g :: gs else (x :: g) :: gs

/-- Join groups with a separator, like JS `Array.prototype.join`. -/
def joinWith (sep : List Char) : List (List Char) → List Char
  | [] => []
  | [x] => x
  | x :: y :: xs => x ++ sep ++ joinWith sep (y :: xs)

/-- Value of a decimal digit character, if it is one. -/
def digitVal (c : Char) : Option Nat :=
  if c.toNat ≥ 48 ∧ c.toNat ≤ 57 then some (c.toNat - 48) else none

/-- Parse a non-empty all-digit character list as a decimal number. -/
def digitsToNat : List Char → Option Nat
  | [] => none
  | cs => cs.foldl (fun acc c =>
      match acc, digitVal c with
      | some n, some d => some (n * 10 + d)
      | _, _ => none) (some 0)

/-- Decimal parse of a string, `none` on empty or non-digit input. -/
def strToNat (s : String) : Option Nat := digitsToNat s.data

/-- `isPreL p l` tests whether `p` is an initial segment of `l`. -/
def isPreL : List Char → List Char → Bool
  | [], _ => true
  | _ :: _, [] => false
  | a :: as, b :: bs => a = b && isPreL as bs

/-- `hasSubL p l` tests whether `p` occurs contiguously inside `l`. -/
def hasSubL (pat : List Char) : List Char → Bool
  | [] => isPreL pat []
  | c :: cs => isPreL pat (c :: cs) || hasSubL pat cs

/-- Substring test on strings (JS `indexOf(...) >= 0`). -/
def hasSub (s pat : String) : Bool := hasSubL pat.data s.data

/-- Suffix test on strings (JS `endsWith`). -/
def endsWithS (s pat : String) : Bool := isPreL pat.data.reverse s.data.reverse

/-- Character codes of a string, the key used by the comparators below. -/
def strKey (s : String) : List Nat := s.data.map Char.toNat

/-! ### Lexicographic comparator on `List Nat`

All orderings of the release index (semantic versions, pre-release
identifiers, ISO-8601 timestamps) are reduced to lexicographic
comparison of `List Nat` keys, for which transitivity and symmetry are
proved once. -/

/-- Lexicographic comparison of numeric keys; a proper initial segment
compares as smaller. -/
def natListCmp : List Nat → List Nat → Ordering
  | [], [] => .eq
  | [], _ :: _ => .lt
  | _ :: _, [] => .gt
  | a :: as, b :: bs => (compare a b).then (natListCmp as bs)

/-! ### Data model (spec §3)

`Release` and `Asset` carry exactly the attributes the embedded handlers
read.  A JS `Date` is carried as its ISO-8601 rendering (the only form
in which the handlers consume it, via `toISOString`); ISO-8601 strings
compare chronologically, so the timestamp tiebreak below compares them
lexicographically. -/

/-- Publish timestamp, represented by its ISO-8601 rendering. -/
structure Date where
  iso : String
deriving Repr, DecidableEq

/-- One downloadable file of a release.  Its platform classification is
derived from `filename` (spec §3), not stored. -/
structure Asset where
  id : String
  filename : String
  size : Nat
deriving Repr, DecidableEq

/-- A published release.  The asset list is called `platforms` as in the
source (`version.platforms`). -/
structure Release where
  tag : String
  notes : String
  published_at : Date
  platforms : List Asset
deriving Repr, DecidableEq

/-- Parsed semantic version: numeric triple plus optional pre-release
identifier (`none` for a stable tag). -/
structure SemVer where
  major : Nat
  minor : Nat
  patch : Nat
  pre : Option String
deriving Repr, DecidableEq

/-- Parse a tag string such as `"1.2.0-beta.1"`; missing or non-numeric
numeric components parse as `0`. -/
def parseTag (s : String) : SemVer :=
  let parts := splitCh '-' s.data
  let main := parts.headD []
  let nums := (splitCh '.' main).map (fun t => (digitsToNat t).getD 0)
  { major := nums.getD 0 0
    minor := nums.getD 1 0
    patch := nums.getD 2 0
    pre :=
      match parts with
      | [] => none
      | [_] => none
      | _ :: rest => some (String.mk (joinWith ['-'] rest)) }

/-- Channel inference (spec §4.3): the identifier following the hyphen,
up to the first dot; `"stable"` when there is no pre-release segment. -/
def channelOfTag (s : String) : String :=
  match (parseTag s).pre with
  | none => "stable"
  | some p => String.mk ((splitCh '.' p.data).headD p.data)

/-- Numeric key of a version: the triple followed by a stable bit, so
that at equal triples a stable version outranks any pre-release. -/
def semVerKey (v : SemVer) : List Nat :=
  [v.major, v.minor, v.patch, if v.pre.isNone then 1 else 0]

/-- Pre-release identifier key (character codes; empty for stable). -/
def semPreKey (v : SemVer) : List Nat := strKey (v.pre.getD "")

/-- Comparator of semantic versions: numeric triple and stable bit
first, then the pre-release identifier. -/
def semCmp : SemVer → SemVer → Ordering :=
  compareLex (Ordering.byKey semVerKey natListCmp)
    (Ordering.byKey semPreKey natListCmp)

/-- `a` is at least version `b` (used for `">=x"` tag filters). -/
def semGE (a b : SemVer) : Bool := !(semCmp a b == .lt)

/-- Comparator realising the release ordering of spec §3: semantic
version first, publish timestamp as tiebreak. -/
def releaseCmp : Release → Release → Ordering :=
  compareLex (Ordering.byKey (fun r => semVerKey (parseTag r.tag)) natListCmp)
    (compareLex (Ordering.byKey (fun r => semPreKey (parseTag r.tag)) natListCmp)
      (Ordering.byKey (fun r => strKey r.published_at.iso) natListCmp))

/-- `NewerEq a b`: release `a` is at least as high in the release
ordering as `b`; the (total, transitive) relation the index is sorted
by, descending. -/
def NewerEq (a b : Release) : Prop := releaseCmp a b ≠ .lt

instance : DecidableRel NewerEq := fun a b => by unfold NewerEq; infer_instance

/-! ### Errors

JavaScript exceptions thrown by the handlers.  `referenceError` embeds
the runtime error raised when an undefined identifier is evaluated. -/

/-- A thrown JS exception: `new Error(msg)`, or the `ReferenceError` the
runtime raises when an undefined variable is read. -/
inductive JsError where
  | error (msg : String)
  | referenceError (msg : String)
deriving Repr, DecidableEq

deriving instance DecidableEq for Except

/-! ### Platform matcher — Modelled from the spec (§4.2)

`lib/utils/platforms.js` is not among the sources; its identifier
constants, the filename classification table and the asset picker are
modelled from spec §4.2 (the spec itself marks the exact substring table
as policy, §9). -/

/-- Modelled from the spec: platform identifier constants used by
`nuts.js` (`platforms.OSX` etc.). -/
def Platforms.OSX : String := "osx"

/-- Modelled from the spec: the Windows platform identifier. -/
def Platforms.WINDOWS : String := "windows_32"

/-- Modelled from the spec: the 32-bit Linux platform identifier. -/
def Platforms.LINUX : String := "linux_32"

/-- Modelled from the spec: the 64-bit Linux platform identifier. -/
def Platforms.LINUX_64 : String := "linux_64"

/-- Modelled from the spec: normalise a requested platform identifier to
a canonical one via fixed substrings (spec §4.2); `none` if unknown. -/
def Platforms.detect (s : String) : Option String :=
  if hasSub s "darwin" || hasSub s "mac" || hasSub s "osx" then some OSX
  else if hasSub s "win" then some WINDOWS
  else if hasSub s "linux" && hasSub s "64" then some LINUX_64
  else if hasSub s "linux" then some LINUX
  else none

/-- Modelled from the spec: classify an asset filename as belonging to a
platform via fixed filename substrings and suffixes (spec §3, §4.2).
The Mac clause is tested first since `"darwin"` contains `"win"`. -/
def Platforms.classify (f : String) : Option String :=
  if endsWithS f ".dmg" || hasSub f "mac" || hasSub f "osx" || hasSub f "darwin" then
    some OSX
  else if f == "RELEASES" || endsWithS f ".nupkg" || endsWithS f ".exe" || hasSub f "win" then
    some WINDOWS
  else if hasSub f "linux" && hasSub f "64" then some LINUX_64
  else if hasSub f "linux" || endsWithS f ".deb" then some LINUX
  else none

/-- Assets of a release whose filename classifies as platform `p`. -/
def Platforms.matchAssets (r : Release) (p : String) : List Asset :=
  r.platforms.filter (fun a => Platforms.classify a.filename == some p)

/-- Modelled from the spec: fixed per-platform default extension
preference order (spec §4.2). -/
def Platforms.prefOrder (p : String) : List String :=
  if p == OSX then [".dmg", ".zip"]
  else if p == WINDOWS then [".exe", ".nupkg", ".zip"]
  else [".deb", ".zip", ".tar.gz"]

/-- Modelled from the spec: `platforms.resolve(release, platform,
{wanted})` — among the platform-matched assets, take the first with the
wanted extension when one is requested (not found otherwise, spec §8),
else follow the default preference order, else the first match. -/
def Platforms.resolveAsset (r : Release) (p : String) (wanted : Option String) : Option Asset :=
  let matched := Platforms.matchAssets r p
  match wanted with
  | some ext => (matched.filter (fun a => endsWithS a.filename ext)).head?
  | none =>
    match (Platforms.prefOrder p).findSome?
        (fun ext => (matched.filter (fun a => endsWithS a.filename ext)).head?) with
    | some a => some a
    | none => matched.head?

/-! ### Version resolver — Modelled from the spec (§4.3)

`lib/versions.js` is not among the sources; `filter` and `resolve` are
modelled from spec §4.3: channel match (wildcard `"*"` matches all,
absent channel defaults to `"stable"`), tag match (wildcard, exact, or
`">=x"` range), platform match via the platform matcher, result sorted
by the release ordering descending; `resolve` is the first element or a
not-found error. -/

/-- A resolution query as passed to `versions.resolve` /
`versions.filter` by the handlers. -/
structure VFilter where
  tag : String
  channel : Option String
  platform : Option String
deriving Repr, DecidableEq

/-- Does the tag filter begin with `">="`? -/
def tagRangeGE (t : String) : Bool := isPreL ['>', '='] t.data

/-- The version part after a `">="` tag filter. -/
def tagRangeRest (t : String) : String := String.mk (t.data.drop 2)

/-- Modelled from the spec: tag filter satisfaction (wildcards `"latest"`
and `"*"`, a `">=x"` semantic-version range, or exact tag equality). -/
def Versions.tagOk (tf : String) (r : Release) : Bool :=
  if tf == "latest" || tf == "*" then true
  else if tagRangeGE tf then semGE (parseTag r.tag) (parseTag (tagRangeRest tf))
  else r.tag == tf

/-- Modelled from the spec: channel filter satisfaction; an absent
channel means `"stable"`, `"*"` matches every channel. -/
def Versions.channelOk (cf : Option String) (r : Release) : Bool :=
  let c := cf.getD "stable"
  c == "*" || channelOfTag r.tag == c

/-- Modelled from the spec: platform filter satisfaction — when a
platform filter is present the release must have at least one asset of
that platform. -/
def Versions.platformOk (pf : Option String) (r : Release) : Bool :=
  match pf with
  | none => true
  | some p => !(Platforms.matchAssets r p).isEmpty

/-- Modelled from the spec: conjunction of the three filter clauses. -/
def Versions.matchesQ (f : VFilter) (r : Release) : Bool :=
  Versions.channelOk f.channel r && Versions.tagOk f.tag r && Versions.platformOk f.platform r

/-- Modelled from the spec: `versions.filter` — the matching releases,
most recent first. -/
def Versions.filterQ (index : List Release) (f : VFilter) : List Release :=
  (index.filter (Versions.matchesQ f)).insertionSort NewerEq

/-- Modelled from the spec: `versions.resolve` — first element of the
filtered sequence, not-found error when it is empty. -/
def Versions.resolve (index : List Release) (f : VFilter) : Except JsError Release :=
  match (Versions.filterQ index f).head? with
  | some r => .ok r
  | none => .error (.error "Version not found")

/-! ### Notes merger — Modelled from the spec (§4.6) -/

/-- Modelled from the spec: concatenate the releases' notes in the given
order, optionally preceding each by a tag header line, joined by a blank
line. -/
def notesMerge (rs : List Release) (includeTag : Bool) : String :=
  String.mk (joinWith ['\n', '\n'] (rs.map (fun r =>
    if includeTag then r.tag.data ++ ['\n'] ++ r.notes.data else r.notes.data)))

/-! ### URL resolution

Model of node's `url.resolve(from, path)` for the only shape the
handlers use: an absolute path, which replaces everything after the
origin of `from`. -/

/-- Origin (scheme plus authority) of an absolute URL. -/
def urlOrigin (u : String) : String :=
  match splitCh '/' u.data with
  | s1 :: _ :: host :: _ => String.mk (s1 ++ ['/', '/'] ++ host)
  | _ => u

/-- `url.resolve(base, path)` for an absolute `path`. -/
def urlResolve (base path : String) : String := urlOrigin base ++ path

/-- JS string coercion of a nullable value (string concatenation renders
`null` as `"null"`). -/
def jsStr (o : Option String) : String := o.getD "null"

/-- JS falsiness of an optional query parameter (`undefined` and the
empty string are both falsy). -/
def isBlank (o : Option String) : Bool := o.getD "" == ""

/-! ### Release manifest codec — Modelled from the spec (§4.5)

`lib/utils/win-releases.js` is not among the sources; the line-oriented
manifest codec is modelled from spec §4.5: one entry per line — content
hash, filename, size, whitespace-separated; a malformed line is a fatal
decode failure.  The `semver` attribute read by `onUpdateWin`'s URL
rewriting is derived from the package filename (the version segment of
the nupkg name). -/

/-- One entry of the line-oriented RELEASES manifest. -/
structure WinEntry where
  hash : String
  filename : String
  size : Nat
  semver : String
deriving Repr, DecidableEq

/-- Modelled from the spec: the version segment of a package filename —
the first hyphen-separated component that begins with a digit. -/
def winSemverOf (filename : String) : String :=
  String.mk
    (((splitCh '-' filename.data).filter
      (fun g => (digitVal (g.headD 'x')).isSome)).headD [])

/-- Modelled from the spec: decode one manifest line (hash, filename,
size); `none` on a malformed line. -/
def winParseLine (l : List Char) : Option WinEntry :=
  match (splitCh ' ' l).filter (fun g => !g.isEmpty) with
  | [h, f, s] =>
    match digitsToNat s with
    | some n => some ⟨String.mk h, String.mk f, n, winSemverOf (String.mk f)⟩
    | none => none
  | _ => none

/-- Modelled from the spec: decode a manifest; any malformed non-empty
line is fatal to the request (spec §4.5). Carriage returns are stripped
and blank lines skipped. -/
def winParse (content : String) : Except JsError (List WinEntry) :=
  let ls := (splitCh '\n' (content.data.filter (fun c => c ≠ '\r'))).filter
    (fun g => !g.isEmpty)
  match ls.mapM winParseLine with
  | some es => .ok es
  | none => .error (.error "Invalid RELEASES manifest")

/-- Modelled from the spec: re-encode one entry in the exact line format
(hash, filename, size, single spaces). -/
def winGenLine (e : WinEntry) : List Char :=
  e.hash.data ++ [' '] ++ e.filename.data ++ [' '] ++ (Nat.repr e.size).data

/-- Modelled from the spec: re-encode a manifest, newline-joined. -/
def winGenerate (es : List WinEntry) : String :=
  String.mk (joinWith ['\n'] (es.map winGenLine))

/-! ### `Nuts.prototype.serveAsset` (nuts.js lines 129-163)

Functional model of one complete `serveAsset` call: the response headers
are set from the asset, then the bytes come from the cache when the key
`asset.id` is present, otherwise from one backend fetch whose result is
both stored under `asset.id` and streamed to the client. -/

/-- The asset content cache: association of asset ids to stored bytes. -/
structure CacheState where
  entries : List (String × String)
deriving Repr, DecidableEq

/-- Cache lookup by asset id (`cache.has` / `cache.getStream`). -/
def CacheState.lookup (c : CacheState) (k : String) : Option String :=
  (c.entries.find? (fun e => e.fst == k)).map (fun e => e.snd)

/-- Cache insertion (`cache.set`). -/
def CacheState.insert (c : CacheState) (k v : String) : CacheState :=
  ⟨(k, v) :: c.entries⟩

/-- Outcome of one `serveAsset` call: the response headers and streamed
bytes, whether a backend fetch happened, and the cache afterwards. -/
structure ServeResult where
  contentLength : Nat
  attachment : String
  body : String
  fetched : Bool
  cache : CacheState
deriving Repr, DecidableEq

/-- `Nuts.prototype.serveAsset`: headers from the asset, bytes from the
cache under `asset.id` on a hit, else one backend fetch stored under
`asset.id` while being served (nuts.js lines 142-161). -/
def serveAsset (backend : Asset → String) (cache : CacheState) (asset : Asset) : ServeResult :=
  match cache.lookup asset.id with
  | some bytes => ⟨asset.size, asset.filename, bytes, false, cache⟩
  | none =>
    let bytes := backend asset
    ⟨asset.size, asset.filename, bytes, true, cache.insert asset.id bytes⟩

/-! ### Interleaving semantics of concurrent `serveAsset` calls

In `serveAsset`'s miss path the backend fetch (`getAssetStream`, an
awaited promise) happens strictly between the synchronous `cache.has`
check and the `cache.set` that stores the result, so other requests run
in that window.  Each concurrent caller for one fixed asset id is a
two-step process: `start` (check the cache; on a miss start a backend
fetch) and `storing` (store the fetched bytes).  A schedule is the list
of caller indices in execution order. -/

/-- Program counter of one caller of `serveAsset` for the shared key. -/
inductive CallerPC where
  | start
  | storing (bytes : String)
  | doneHit (bytes : String)
  | doneMiss (bytes : String)
deriving Repr, DecidableEq

/-- Shared state: the callers, the cache entry for the one asset id, and
the number of backend fetches started so far. -/
structure ConcState where
  callers : List CallerPC
  cached : Option String
  fetches : Nat
deriving Repr, DecidableEq

/-- Run caller `i` for one step (nuts.js lines 147-160: `cache.has` then
`backend.getAssetStream` then `cache.set`). -/
def concStep (backendBytes : String) (s : ConcState) (i : Nat) : ConcState :=
  match s.callers[i]? with
  | some .start =>
    match s.cached with
    | some b => { s with callers := s.callers.set i (.doneHit b) }
    | none =>
      { s with callers := s.callers.set i (.storing backendBytes)
               fetches := s.fetches + 1 }
  | some (.storing b) =>
    { s with callers := s.callers.set i (.doneMiss b), cached := some b }
  | _ => s

/-- Run a whole schedule. -/
def concRun (backendBytes : String) (s : ConcState) (sched : List Nat) : ConcState :=
  sched.foldl (concStep backendBytes) s

/-- `n` concurrent callers of the same uncached asset. -/
def concInit (n : Nat) : ConcState := ⟨List.replicate n .start, none, 0⟩

/-! ### `Nuts.prototype.onUpdate` (nuts.js lines 233-242) -/

/-- The response of the `/update` route: a redirect. -/
inductive UpdateAction where
  | redirect (location : String)
deriving Repr, DecidableEq

/-- `Nuts.prototype.onUpdate`: require the `version` and `platform`
query parameters, then redirect to the platform/version update route. -/
def onUpdate (version? platform? : Option String) : Except JsError UpdateAction :=
  if isBlank version? then .error (.error "Requires \"version\" parameter")
  else if isBlank platform? then .error (.error "Requires \"platform\" parameter")
  else .ok (.redirect ("/update/" ++ platform?.getD "" ++ "/" ++ version?.getD ""))

/-! ### `Nuts.prototype.onUpdateOSX` (nuts.js lines 245-278) -/

/-- Response of the Squirrel.Mac update check: 204 `No updates`, or the
JSON payload (url, name, notes, pub_date). -/
inductive OsxResponse where
  | noUpdates
  | update (url name notes pub_date : String)
deriving Repr, DecidableEq

/-- `Nuts.prototype.onUpdateOSX`: filter releases at least the requested
version on the detected platform across all channels; 204 when nothing
newer exists, else JSON with the proxied download URL, tag, merged notes
of all but the last filtered release, and the ISO-8601 publish date. -/
def onUpdateOSX (index : List Release) (fullUrl platformParam tagParam : String) :
    Except JsError OsxResponse :=
  if tagParam == "" then .error (.error "Requires \"version\" parameter")
  else if platformParam == "" then .error (.error "Requires \"platform\" parameter")
  else
    let pd := Platforms.detect platformParam
    let vs := Versions.filterQ index ⟨">=" ++ tagParam, some "*", pd⟩
    match vs.head? with
    | none => .ok .noUpdates
    | some latest =>
      if latest.tag == tagParam then .ok .noUpdates
      else .ok (.update
        (urlResolve fullUrl ("/download/version/" ++ latest.tag ++ "/" ++ jsStr pd
          ++ "?filetype=zip"))
        latest.tag
        (notesMerge vs.dropLast false)
        latest.published_at.iso)

/-! ### `Nuts.prototype.onUpdateWin` (nuts.js lines 283-334) -/

/-- Response of the Squirrel.Windows update feed. -/
structure WinFeed where
  contentLength : Nat
  attachment : String
  body : String
deriving Repr, DecidableEq

/-- Release selection of `onUpdateWin`: the local `platform` variable is
hardcoded to `'win_32'` (nuts.js line 287), so the filter platform is
`platforms.detect('win_32')` whatever the route's platform segment
said. -/
def winSelect (index : List Release) (tagParam : String) : Option Release :=
  (Versions.filterQ index ⟨">=" ++ tagParam, some "*", Platforms.detect "win_32"⟩).head?

/-- The URL rewriting applied to each decoded entry (nuts.js lines
317-323): the filename becomes a fully-qualified URL through this
server's `/download/:tag/:filename` route; hash and size are carried
unchanged. -/
def rewriteEntry (fullUrl : String) (e : WinEntry) : WinEntry :=
  { e with filename := urlResolve fullUrl ("/download/" ++ e.semver ++ "/" ++ e.filename) }

/-- `Nuts.prototype.onUpdateWin`: select the newest release at least the
requested version matching the hardcoded `win_32` platform, read its
`RELEASES` asset, decode it, rewrite every entry's filename to a proxied
download URL, re-encode, and answer with attachment name `RELEASES` and
the output's length as `Content-Length`.  `platformParam` is the route's
`:platform` segment, which the handler never reads. -/
def onUpdateWin (index : List Release) (readAsset : Asset → Except JsError String)
    (fullUrl platformParam tagParam : String) : Except JsError WinFeed :=
  match winSelect index tagParam with
  | none => .error (.error "Version not found")
  | some latest =>
    match latest.platforms.find? (fun a => a.filename == "RELEASES") with
    | none => .error (.error "File not found")
    | some asset =>
      match readAsset asset with
      | .error e => .error e
      | .ok content =>
        match winParse content with
        | .error e => .error e
        | .ok entries =>
          let output := winGenerate (entries.map (rewriteEntry fullUrl))
          .ok ⟨output.length, "RELEASES", output⟩

/-! ### `Nuts.prototype.onDownload` (nuts.js lines 166-229) -/

/-- The useragent flags consulted when no platform is in the route. -/
structure UserAgent where
  isMac : Bool
  isWindows : Bool
  isLinux : Bool
  isLinux64 : Bool
deriving Repr, DecidableEq

/-- A download request: route parameters, the `filetype` query
parameter, and the useragent. -/
structure DownloadReq where
  channel : Option String
  platform : Option String
  tag : Option String
  filename : Option String
  filetype : Option String
  ua : UserAgent
deriving Repr, DecidableEq

/-- Platform detection from the useragent (nuts.js lines 178-181): the
checks are successive non-exclusive `if`s, so the last matching flag
wins. -/
def uaPlatform (ua : UserAgent) : Option String :=
  if ua.isLinux64 then some Platforms.LINUX_64
  else if ua.isLinux then some Platforms.LINUX
  else if ua.isWindows then some Platforms.WINDOWS
  else if ua.isMac then some Platforms.OSX
  else none

/-- The resolution query built by `onDownload` (nuts.js lines 168-196):
with a filename the platform is forced to `null`; otherwise the route's
platform or the useragent's, and it is an error to have neither; a
concrete (non-`latest`) tag forces the channel to the wildcard. -/
def downloadQuery (req : DownloadReq) : Except JsError VFilter :=
  let tag := req.tag.getD "latest"
  let pStep : Except JsError (Option String) :=
    if req.filename.isNone then
      match req.platform.or (uaPlatform req.ua) with
      | none => .error (.error "No platform specified and impossible to detect one")
      | some p => .ok (some p)
    else .ok none
  pStep.map fun platform =>
    ⟨tag, if tag == "latest" then req.channel else some "*", platform⟩

/-- Resolution with the channel fallback (nuts.js lines 192-207): on a
failed resolve with no channel and tag `latest`, the handler retries —
but the retry (line 202) reads the identifier `versions`, which is not
defined in `onDownload`'s scope (the instance lives in `this.versions`),
so evaluating it raises a `ReferenceError` instead of resolving. -/
def downloadResolve (index : List Release) (req : DownloadReq) :
    Except JsError (VFilter × Release) :=
  match downloadQuery req with
  | .error e => .error e
  | .ok q =>
    match Versions.resolve index q with
    | .ok v => .ok (q, v)
    | .error e =>
      if q.channel.isSome || q.tag != "latest" then .error e
      else .error (.referenceError "versions is not defined")

/-- `Nuts.prototype.onDownload`: resolve the release, then pick the
asset — by exact filename when one was requested (nuts.js lines
213-216), else through the platform matcher with the optional
`filetype` hint (lines 217-221) — and serve it. -/
def onDownload (index : List Release) (req : DownloadReq) :
    Except JsError (Release × Asset) :=
  match downloadResolve index req with
  | .error e => .error e
  | .ok (q, version) =>
    let asset :=
      match req.filename with
      | some fn => version.platforms.find? (fun a => a.filename == fn)
      | none =>
        match q.platform with
        | some p => Platforms.resolveAsset version p (req.filetype.map (fun t => "." ++ t))
        | none => none
    match asset with
    | some a => .ok (version, a)
    | none => .error (.error ("No download available for platform "
        ++ jsStr q.platform ++ " for version " ++ version.tag
        ++ " (" ++ q.channel.getD "beta" ++ ")"))

/-! ### Properties of the comparators and of `filterQ` -/

theorem natListCmp_swap (x y : List Nat) : (natListCmp x y).swap = natListCmp y x := by
  induction x generalizing y with
  | nil => cases y <;> rfl
  | cons a as ih =>
    cases y with
    | nil => rfl
    | cons b bs =>
      simp only [natListCmp, Ordering.swap_then]
      rw [ih bs]
      congr 1
      exact Batteries.OrientedCmp.symm a b

theorem natListCmp_le_trans {x y z : List Nat} (h1 : natListCmp x y ≠ .gt)
    (h2 : natListCmp y z ≠ .gt) : natListCmp x z ≠ .gt := by
  induction x generalizing y z with
  | nil => cases y <;> cases z <;> simp_all [natListCmp]
  | cons a as ih =>
    cases y with
    | nil => cases z <;> simp_all [natListCmp]
    | cons b bs =>
      cases z with
      | nil => simp_all [natListCmp]
      | cons c cs =>
        simp only [natListCmp, ne_eq, Ordering.then_eq_gt, not_or, not_and] at h1 h2 ⊢
        obtain ⟨hab, hab2⟩ := h1
        obtain ⟨hbc, hbc2⟩ := h2
        rw [Nat.compare_eq_gt] at hab hbc
        refine ⟨by rw [Nat.compare_eq_gt]; omega, ?_⟩
        intro hac
        rw [Nat.compare_eq_eq] at hac
        have hb : a = b := by omega
        have hc : b = c := by omega
        exact ih (hab2 (Nat.compare_eq_eq.mpr hb)) (hbc2 (Nat.compare_eq_eq.mpr hc))

instance : Batteries.TransCmp natListCmp where
  symm x y := natListCmp_swap x y
  le_trans h1 h2 := natListCmp_le_trans h1 h2

instance : Batteries.TransCmp releaseCmp := by
  unfold releaseCmp
  infer_instance

instance : IsTrans Release NewerEq :=
  ⟨fun _ _ _ h1 h2 => Batteries.TransCmp.ge_trans h1 h2⟩

instance : IsTotal Release NewerEq := by
  refine ⟨fun a b => ?_⟩
  unfold NewerEq
  rcases h : releaseCmp a b with _ | _ | _
  · right
    have hs := @Batteries.OrientedCmp.symm Release releaseCmp _ a b
    rw [h] at hs
    intro hc
    rw [← hs] at hc
    exact Ordering.noConfusion hc
  · left; simp [h]
  · left; simp [h]

/-- If `releaseCmp a b = .gt` then `releaseCmp b a = .lt`, i.e. `b` is
not at least as new as `a`. -/
theorem not_newerEq_of_gt {a b : Release} (h : releaseCmp a b = .gt) : ¬ NewerEq b a := by
  intro hc
  have hs := @Batteries.OrientedCmp.symm Release releaseCmp _ a b
  rw [h] at hs
  exact hc hs.symm

theorem mem_filterQ {index : List Release} {f : VFilter} {r : Release} :
    r ∈ Versions.filterQ index f ↔ r ∈ index ∧ Versions.matchesQ f r = true := by
  unfold Versions.filterQ
  rw [(List.perm_insertionSort NewerEq _).mem_iff]
  exact List.mem_filter

theorem sorted_filterQ (index : List Release) (f : VFilter) :
    (Versions.filterQ index f).Pairwise NewerEq :=
  List.sorted_insertionSort NewerEq _

/-- The head of `filterQ` is at least as new as every matching release. -/
theorem head_filterQ_max {index : List Release} {f : VFilter} {h : Release}
    (hh : (Versions.filterQ index f).head? = some h) :
    ∀ r ∈ Versions.filterQ index f, NewerEq h r := by
  intro r hr
  rcases hv : Versions.filterQ index f with _ | ⟨x, xs⟩
  · rw [hv] at hr; exact absurd hr (List.not_mem_nil r)
  · rw [hv] at hh hr
    simp only [List.head?_cons, Option.some.injEq] at hh
    subst hh
    have hs := sorted_filterQ index f
    rw [hv] at hs
    rcases List.mem_cons.mp hr with h1 | h1
    · subst h1
      intro hc
      have hrfl : releaseCmp r r = .eq := Batteries.OrientedCmp.cmp_refl
      rw [hrfl] at hc
      exact Ordering.noConfusion hc
    · exact (List.pairwise_cons.mp hs).1 r h1

/-- If `m` is a matching release strictly newer than every other
matching release, then `m` is the head of `filterQ`. -/
theorem head_filterQ_of_strict_max {index : List Release} {f : VFilter} {m : Release}
    (hm : m ∈ Versions.filterQ index f)
    (hstrict : ∀ r ∈ Versions.filterQ index f, r ≠ m → releaseCmp m r = .gt) :
    (Versions.filterQ index f).head? = some m := by
  rcases hv : Versions.filterQ index f with _ | ⟨x, xs⟩
  · rw [hv] at hm; exact absurd hm (List.not_mem_nil m)
  · rw [hv] at hm hstrict
    simp only [List.head?_cons, Option.some.injEq]
    by_contra hne
    have hxm : x ≠ m := hne
    have hgt := hstrict x (List.mem_cons_self x xs) hxm
    have hhead : NewerEq x m := by
      have hs := sorted_filterQ index f
      rw [hv] at hs
      rcases List.mem_cons.mp hm with h1 | h1
      · exact absurd h1.symm hxm
      · exact (List.pairwise_cons.mp hs).1 m h1
    exact not_newerEq_of_gt hgt hhead

/-- In a list sorted descending by `NewerEq`, every element of
`dropLast` is at least as new as the last element. -/
theorem dropLast_newerEq_getLast {l : List Release} (hs : l.Pairwise NewerEq)
    (hne : l ≠ []) : ∀ r ∈ l.dropLast, NewerEq r (l.getLast hne) := by
  intro r hr
  have hsplit : l.dropLast ++ [l.getLast hne] = l := List.dropLast_append_getLast hne
  rw [← hsplit] at hs
  have := (List.pairwise_append.mp hs).2.2
  exact this r hr (l.getLast hne) (List.mem_singleton_self _)

/-! ### Sample data used by the concrete witnesses -/

/-- Sample stable release `2.0.0` with one Mac asset. -/
def rx20 : Release :=
  ⟨"2.0.0", "A", ⟨"2016-02-01T00:00:00.000Z"⟩, [⟨"osx20", "app-2.0.0-mac.dmg", 2000⟩]⟩

/-- Sample stable release `1.5.0` with one Mac asset. -/
def rx15 : Release :=
  ⟨"1.5.0", "B", ⟨"2016-01-15T00:00:00.000Z"⟩, [⟨"osx15", "app-1.5.0-mac.dmg", 1500⟩]⟩

/-- Sample stable release `1.0.0` with one Mac asset. -/
def rx10 : Release :=
  ⟨"1.0.0", "C", ⟨"2016-01-01T00:00:00.000Z"⟩, [⟨"osx10", "app-1.0.0-mac.dmg", 1000⟩]⟩

/-- Sample beta-channel release `1.1.0-beta.1` with one Linux asset. -/
def rBeta : Release :=
  ⟨"1.1.0-beta.1", "D", ⟨"2016-01-05T00:00:00.000Z"⟩,
    [⟨"lin11", "app-1.1.0-beta.1-linux-32.deb", 1100⟩]⟩

/-- Sample stable Windows release `1.0.0` carrying a `RELEASES` manifest
and a nupkg package. -/
def rWin10 : Release :=
  ⟨"1.0.0", "W", ⟨"2016-01-01T00:00:00.000Z"⟩,
    [⟨"winrel", "RELEASES", 55⟩, ⟨"winpkg", "app-1.0.0-full.nupkg", 1024⟩]⟩

/-- Sample backend reader: serves the `RELEASES` manifest of `rWin10`. -/
def rdWin : Asset → Except JsError String := fun a =>
  if a.id == "winrel" then .ok "HASH1 app-1.0.0-full.nupkg 1024"
  else .error (.error "asset missing")

/-- A download request with every field absent and a blank useragent. -/
def emptyReq : DownloadReq := ⟨none, none, none, none, none, ⟨false, false, false, false⟩⟩

example : Platforms.classify "app-2.0.0-mac.dmg" = some Platforms.OSX := by decide
example : Platforms.classify "RELEASES" = some Platforms.WINDOWS := by decide
example : Platforms.classify "app-1.1.0-beta.1-linux-32.deb" = some Platforms.LINUX := by decide
example : Platforms.detect "win_32" = some Platforms.WINDOWS := by decide
example : channelOfTag "1.1.0-beta.1" = "beta" := by decide
example : channelOfTag "2.0.0" = "stable" := by decide
example : releaseCmp rx20 rx10 = .gt := by decide
example : Versions.filterQ [rx10, rx20] ⟨">=" ++ "1.0.0", some "*", some "osx"⟩
    = [rx20, rx10] := by decide
example : notesMerge [rx20, rx15] false = "A\n\nB" := by decide

/-! ### Phased runs of the concurrency model -/

theorem concRun_append (b : String) (s : ConcState) (l1 l2 : List Nat) :
    concRun b s (l1 ++ l2) = concRun b (concRun b s l1) l2 :=
  List.foldl_append _ _ l1 l2

theorem replicate_append_cons {α : Type} (x : α) (j : Nat) (l : List α) :
    List.replicate j x ++ x :: l = x :: (List.replicate j x ++ l) := by
  induction j with
  | zero => rfl
  | succ j ih => simp [List.replicate_succ, ih]

/-- Checking phase: callers `j, …, j+m-1`, all still at `start` with the
cache empty, each observe a miss and each start their own backend
fetch. -/
theorem concRun_checkPhase (b : String) : ∀ (m j f : Nat),
    concRun b ⟨List.replicate j (.storing b) ++ List.replicate m .start, none, f⟩
      (List.range' j m)
    = ⟨List.replicate (j + m) (.storing b), none, f + m⟩ := by
  intro m
  induction m with
  | zero => intro j f; simp [concRun]
  | succ m ih =>
    intro j f
    rw [List.range'_succ]
    show concRun b (concStep b _ j) _ = _
    have hget : (List.replicate j (CallerPC.storing b)
          ++ List.replicate (m + 1) CallerPC.start)[j]? = some CallerPC.start := by
      rw [List.getElem?_append_right (by simp)]
      simp [List.replicate_succ]
    have hset : (List.replicate j (CallerPC.storing b)
          ++ List.replicate (m + 1) CallerPC.start).set j (CallerPC.storing b)
        = List.replicate (j + 1) (CallerPC.storing b)
          ++ List.replicate m CallerPC.start := by
      rw [List.set_append_right _ _ (by simp)]
      simp only [List.length_replicate, Nat.sub_self, List.replicate_succ,
        List.set_cons_zero]
      rw [replicate_append_cons, List.cons_append]
    have hstep : concStep b ⟨List.replicate j (CallerPC.storing b)
          ++ List.replicate (m + 1) CallerPC.start, none, f⟩ j
        = ⟨List.replicate (j + 1) (CallerPC.storing b) ++ List.replicate m CallerPC.start,
            none, f + 1⟩ := by
      unfold concStep
      rw [hget]
      simp only
      rw [hset]
    rw [hstep, ih (j + 1) (f + 1)]
    rw [show j + 1 + m = j + (m + 1) from by omega, show f + 1 + m = f + (m + 1) from by omega]

/-- Storing phase: callers `j, …, j+m-1`, all at `storing`, each store
the fetched bytes and finish; no further fetches are started. -/
theorem concRun_storePhase (b : String) : ∀ (m j f : Nat) (c : Option String),
    concRun b ⟨List.replicate j (.doneMiss b) ++ List.replicate m (.storing b), c, f⟩
      (List.range' j m)
    = ⟨List.replicate (j + m) (.doneMiss b), if m = 0 then c else some b, f⟩ := by
  intro m
  induction m with
  | zero => intro j f c; simp [concRun]
  | succ m ih =>
    intro j f c
    rw [List.range'_succ]
    show concRun b (concStep b _ j) _ = _
    have hget : (List.replicate j (CallerPC.doneMiss b)
          ++ List.replicate (m + 1) (CallerPC.storing b))[j]?
        = some (CallerPC.storing b) := by
      rw [List.getElem?_append_right (by simp)]
      simp [List.replicate_succ]
    have hset : (List.replicate j (CallerPC.doneMiss b)
          ++ List.replicate (m + 1) (CallerPC.storing b)).set j (CallerPC.doneMiss b)
        = List.replicate (j + 1) (CallerPC.doneMiss b)
          ++ List.replicate m (CallerPC.storing b) := by
      rw [List.set_append_right _ _ (by simp)]
      simp only [List.length_replicate, Nat.sub_self, List.replicate_succ,
        List.set_cons_zero]
      rw [replicate_append_cons, List.cons_append]
    have hstep : concStep b ⟨List.replicate j (CallerPC.doneMiss b)
          ++ List.replicate (m + 1) (CallerPC.storing b), c, f⟩ j
        = ⟨List.replicate (j + 1) (CallerPC.doneMiss b)
            ++ List.replicate m (CallerPC.storing b), some b, f⟩ := by
      unfold concStep
      rw [hget]
      simp only
      rw [hset]
    rw [hstep, ih (j + 1) f (some b)]
    have h1 : (if m = 0 then some b else some b) = some b := by split <;> rfl
    have h2 : (if m + 1 = 0 then c else some b) = some b := by simp
    rw [h1, h2, show j + 1 + m = j + (m + 1) from by omega]

/-! ### Claim C2 -/

/-- Claim C2 counterexample: two callers concurrently request the same
uncached asset — both check the cache before either fetch has been
stored (schedule `[0, 1, 0, 1]`) — and the model of `serveAsset`'s
check-fetch-store path performs two backend fetches, not the single
fetch the claim requires. -/
theorem serveAsset_two_cold_callers_two_fetches :
    (concRun "bytes" (concInit 2) [0, 1, 0, 1]).fetches = 2 ∧
    ¬ (concRun "bytes" (concInit 2) [0, 1, 0, 1]).fetches = 1 := by decide

/-- Claim C2 (amended): `serveAsset` has no single-flight coordination:
each caller that checks the cache while the shared asset id is still
unstored starts its own backend fetch — `n` cold callers under the
all-check-first interleaving perform `n` fetches, though every caller
does end up serving the backend's bytes; a caller that only checks
after a fetch has been stored (fully sequential schedule) is served
from the cache without a new fetch. -/
theorem serveAsset_fetch_per_cold_caller (b : String) (n : Nat) :
    concRun b (concInit n) (List.range n ++ List.range n)
      = ⟨List.replicate n (.doneMiss b), if n = 0 then none else some b, n⟩ ∧
    concRun b (concInit 2) [0, 0, 1, 1]
      = ⟨[.doneMiss b, .doneHit b], some b, 1⟩ := by
  constructor
  · rw [concRun_append, List.range_eq_range']
    have hinit : concInit n = ⟨List.replicate 0 (CallerPC.storing b)
        ++ List.replicate n CallerPC.start, none, 0⟩ := by simp [concInit]
    rw [hinit, concRun_checkPhase b n 0 0]
    have hmid : (⟨List.replicate (0 + n) (CallerPC.storing b), none, 0 + n⟩ : ConcState)
        = ⟨List.replicate 0 (CallerPC.doneMiss b) ++ List.replicate n (CallerPC.storing b),
            none, 0 + n⟩ := by simp
    rw [hmid, concRun_storePhase b n 0 (0 + n) none]
    simp
  · rfl

/-! ### Claim C3 -/

/-- Claim C3: `serveAsset` is keyed by the asset's id — on a cache hit
for that id the cached bytes are served with no backend fetch and the
cache is unchanged; on a miss the backend's bytes are fetched, served,
and stored under that id, so that a further asset object carrying the
same id is then served from the cache without a fetch. -/
theorem serveAsset_keyed_by_id (backend : Asset → String) (cache : CacheState)
    (asset a2 : Asset) :
    (∀ bytes, cache.lookup asset.id = some bytes →
      serveAsset backend cache asset = ⟨asset.size, asset.filename, bytes, false, cache⟩) ∧
    (cache.lookup asset.id = none →
      serveAsset backend cache asset = ⟨asset.size, asset.filename, backend asset, true,
        cache.insert asset.id (backend asset)⟩) ∧
    (a2.id = asset.id → cache.lookup asset.id = none →
      serveAsset backend (serveAsset backend cache asset).cache a2
        = ⟨a2.size, a2.filename, backend asset, false,
            (serveAsset backend cache asset).cache⟩) := by
  refine ⟨?_, ?_, ?_⟩
  · intro bytes hb
    unfold serveAsset
    rw [hb]
  · intro hn
    unfold serveAsset
    rw [hn]
  · intro hid hn
    unfold serveAsset
    rw [hn]
    simp only
    have : (CacheState.insert cache asset.id (backend asset)).lookup a2.id
        = some (backend asset) := by
      unfold CacheState.insert CacheState.lookup
      simp [List.find?_cons, hid]
    rw [this]

/-- Claim C3 witness: a concrete backend and empty cache — the first
call fetches and stores under `"osx20"`, and a second asset object with
the same id is then served from the cache without a fetch. -/
theorem serveAsset_keyed_by_id_witness :
    serveAsset (fun _ => "BYTES") ⟨[]⟩ ⟨"osx20", "app-2.0.0-mac.dmg", 2000⟩
      = ⟨2000, "app-2.0.0-mac.dmg", "BYTES", true, ⟨[("osx20", "BYTES")]⟩⟩ ∧
    serveAsset (fun _ => "BYTES")
        (serveAsset (fun _ => "BYTES") ⟨[]⟩ ⟨"osx20", "app-2.0.0-mac.dmg", 2000⟩).cache
        ⟨"osx20", "renamed.dmg", 7⟩
      = ⟨7, "renamed.dmg", "BYTES", false,
          (serveAsset (fun _ => "BYTES") ⟨[]⟩ ⟨"osx20", "app-2.0.0-mac.dmg", 2000⟩).cache⟩ := by
  have h := serveAsset_keyed_by_id (fun _ => "BYTES") ⟨[]⟩
    ⟨"osx20", "app-2.0.0-mac.dmg", 2000⟩ ⟨"osx20", "renamed.dmg", 7⟩
  exact ⟨h.2.1 (by decide), h.2.2 (by decide) (by decide)⟩

/-! ### Claim C4 -/

/-- Claim C4: `onUpdate` fails immediately with an error naming the
missing query parameter when `version` or `platform` is absent (its
very definition consults neither the release index nor the backend),
and redirects to the platform/version update route when both are
present. -/
theorem onUpdate_param_guard (v p : Option String) :
    (isBlank v = true → onUpdate v p = .error (.error "Requires \"version\" parameter")) ∧
    (isBlank v = false → isBlank p = true →
      onUpdate v p = .error (.error "Requires \"platform\" parameter")) ∧
    (isBlank v = false → isBlank p = false →
      onUpdate v p = .ok (.redirect ("/update/" ++ p.getD "" ++ "/" ++ v.getD ""))) := by
  refine ⟨?_, ?_, ?_⟩
  · intro hv
    unfold onUpdate
    rw [hv]
    rfl
  · intro hv hp
    unfold onUpdate
    rw [hv, hp]
    rfl
  · intro hv hp
    unfold onUpdate
    rw [hv, hp]
    rfl

/-! ### Claims C1, C9, C10 — the download path -/

theorem downloadQuery_fields {req : DownloadReq} {q : VFilter}
    (hq : downloadQuery req = .ok q) :
    q.tag = req.tag.getD "latest" ∧
    q.channel = (if req.tag.getD "latest" == "latest" then req.channel else some "*") := by
  unfold downloadQuery at hq
  rcases hf : req.filename.isNone with _ | _ <;> rw [hf] at hq
  · simp only [Bool.false_eq_true, if_false, Except.map] at hq
    injection hq with hq
    subst hq
    exact ⟨rfl, rfl⟩
  · simp only [if_true] at hq
    rcases ho : req.platform.or (uaPlatform req.ua) with _ | p <;> rw [ho] at hq
    · simp [Except.map] at hq
    · simp only [Except.map] at hq
      injection hq with hq
      subst hq
      exact ⟨rfl, rfl⟩

/-- Claim C1 (code bug): with tag `latest` and no channel in the route
(so resolution used the default concrete `stable` channel), a failed
first resolution is meant to be retried with the wildcard channel — but
the retry at nuts.js line 202 reads `versions`, an identifier that is
not defined in `onDownload`'s scope (the resolver lives in
`this.versions`), so the handler fails with a ReferenceError instead of
returning the highest-versioned release across all channels. -/
theorem onDownload_fallback_referenceError (index : List Release) (req : DownloadReq)
    (q : VFilter) (e : JsError) (hch : req.channel = none)
    (htag : req.tag.getD "latest" = "latest") (hq : downloadQuery req = .ok q)
    (hres : Versions.resolve index q = .error e) :
    onDownload index req = .error (.referenceError "versions is not defined") := by
  obtain ⟨hqt, hqc⟩ := downloadQuery_fields hq
  rw [htag] at hqt hqc
  have hc : q.channel = none := by
    rw [hqc, hch]
    rfl
  have hdr : downloadResolve index req
      = .error (.referenceError "versions is not defined") := by
    unfold downloadResolve
    rw [hq]
    dsimp only
    rw [hres, hc, hqt]
    simp
  unfold onDownload
  rw [hdr]

/-- Claim C1 witness: the index holds only the beta release
`1.1.0-beta.1` (so a release exists), the request has no channel and no
tag; stable-channel resolution fails and the handler answers with the
ReferenceError instead of the beta release. -/
theorem onDownload_fallback_referenceError_witness :
    onDownload [rBeta] { emptyReq with platform := some "linux_32" }
      = .error (.referenceError "versions is not defined") ∧ rBeta ∈ [rBeta] :=
  ⟨onDownload_fallback_referenceError [rBeta] { emptyReq with platform := some "linux_32" }
      ⟨"latest", none, some "linux_32"⟩ (.error "Version not found") rfl rfl
      (by decide) (by decide), by decide⟩

/-- Claim C9: when a download request supplies a filename, the
resolution query carries no platform filter, the route's platform and
the useragent have no effect on the outcome, and the served asset is
the first asset of the resolved release whose filename equals the
requested one exactly. -/
theorem onDownload_filename_bypass (index : List Release) (req : DownloadReq) (fn : String)
    (hfn : req.filename = some fn) :
    (∀ q, downloadQuery req = .ok q → q.platform = none) ∧
    (∀ p' ua', onDownload index { req with platform := p', ua := ua' }
      = onDownload index req) ∧
    (∀ v a, onDownload index req = .ok (v, a) →
      v.platforms.find? (fun x => x.filename == fn) = some a ∧ a ∈ v.platforms ∧
        a.filename = fn) := by
  refine ⟨?_, ?_, ?_⟩
  · intro q hq
    unfold downloadQuery at hq
    rw [hfn] at hq
    simp only [Option.isNone_some, Bool.false_eq_true, if_false, Except.map] at hq
    injection hq with hq
    subst hq
    rfl
  · intro p' ua'
    unfold onDownload downloadResolve downloadQuery
    simp [hfn, Except.map]
  · intro v a h
    unfold onDownload at h
    rcases hdr : downloadResolve index req with e | ⟨q, version⟩ <;> rw [hdr] at h
    · exact absurd h (by simp)
    · rw [hfn] at h
      simp only at h
      rcases hfind : version.platforms.find? (fun x => x.filename == fn) with _ | a' <;>
        rw [hfind] at h
      · exact absurd h (by simp)
      · simp only [Except.ok.injEq, Prod.mk.injEq] at h
        obtain ⟨hv, ha⟩ := h
        subst hv
        subst ha
        refine ⟨hfind, List.mem_of_find?_eq_some hfind, ?_⟩
        have := List.find?_some hfind
        exact eq_of_beq this

/-- Sample request of claim C9: a named file of version `2.0.0`. -/
def reqC9 : DownloadReq :=
  { emptyReq with tag := some "2.0.0", filename := some "app-2.0.0-mac.dmg" }

/-- Variant of `reqC9` with a contrary route platform and useragent. -/
def reqC9b : DownloadReq :=
  { reqC9 with platform := some "windows_32", ua := ⟨true, true, true, true⟩ }

/-- Claim C9 witness: requesting `app-2.0.0-mac.dmg` of version `2.0.0`
ignores route platform and useragent, and serves the asset with exactly
that filename. -/
theorem onDownload_filename_bypass_witness :
    onDownload [rx20] reqC9b
      = onDownload [rx20] reqC9 ∧
    rx20.platforms.find? (fun x => x.filename == "app-2.0.0-mac.dmg")
      = some ⟨"osx20", "app-2.0.0-mac.dmg", 2000⟩ := by
  have h := onDownload_filename_bypass [rx20] reqC9 "app-2.0.0-mac.dmg" rfl
  refine ⟨h.2.1 (some "windows_32") ⟨true, true, true, true⟩, ?_⟩
  exact (h.2.2 rx20 ⟨"osx20", "app-2.0.0-mac.dmg", 2000⟩ (by decide)).1

/-- Claim C10: a concrete (non-`latest`) tag forces the resolution
query's channel filter to the wildcard `"*"`, so the channel supplied in
the request has no effect on the handler's outcome. -/
theorem onDownload_concrete_tag_wildcard_channel (index : List Release) (req : DownloadReq)
    (t : String) (ht : req.tag = some t) (hlat : t ≠ "latest") :
    (∀ q, downloadQuery req = .ok q → q.channel = some "*") ∧
    (∀ c1 c2, onDownload index { req with channel := c1 }
      = onDownload index { req with channel := c2 }) := by
  have hbeq : (t == "latest") = false := beq_eq_false_iff_ne.mpr hlat
  constructor
  · intro q hq
    have := (downloadQuery_fields hq).2
    rw [ht] at this
    simpa [hbeq] using this
  · intro c1 c2
    unfold onDownload downloadResolve downloadQuery
    simp only [ht, Option.getD_some, hbeq, Bool.false_eq_true, if_false]

/-- Sample request of claim C10: version `1.0.0` for the `osx`
platform. -/
def reqC10 : DownloadReq := { emptyReq with tag := some "1.0.0", platform := some "osx" }

/-- Claim C10 witness: with the concrete tag `1.0.0` a `beta` channel
and an absent channel produce the same outcome, and the issued query
carries the wildcard channel. -/
theorem onDownload_concrete_tag_wildcard_channel_witness :
    onDownload [rx20, rx10, rBeta] { reqC10 with channel := some "beta" }
      = onDownload [rx20, rx10, rBeta] { reqC10 with channel := none } ∧
    (⟨"1.0.0", some "*", some "osx"⟩ : VFilter).channel = some "*" := by
  have h := onDownload_concrete_tag_wildcard_channel [rx20, rx10, rBeta] reqC10 "1.0.0"
    rfl (by decide)
  exact ⟨h.2 (some "beta") none, h.1 ⟨"1.0.0", some "*", some "osx"⟩ (by decide)⟩

/-- Claim C4 witness: concrete requests with a missing `version`, a
missing `platform`, and with both present. -/
theorem onUpdate_param_guard_witness :
    onUpdate none (some "osx") = .error (.error "Requires \"version\" parameter") ∧
    onUpdate (some "1.0.0") none = .error (.error "Requires \"platform\" parameter") ∧
    onUpdate (some "1.0.0") (some "osx") = .ok (.redirect "/update/osx/1.0.0") :=
  ⟨(onUpdate_param_guard none (some "osx")).1 (by decide),
   (onUpdate_param_guard (some "1.0.0") none).2.1 (by decide) (by decide),
   (onUpdate_param_guard (some "1.0.0") (some "osx")).2.2 (by decide) (by decide)⟩

/-! ### Claims C5, C6 — the Squirrel.Mac update check -/

/-- Claim C5: in a Mac-style update check with a non-empty version and a
recognised platform, when no release at least the queried version
matches the platform on any channel — or when the newest such release
carries the queried tag itself — the handler answers `No updates`
(204); otherwise it answers JSON holding the proxied download URL of
that newest matching release, its tag, the merged notes, and its
ISO-8601 publish timestamp.  `m` ranges over the strictly-newest
matching release; the first conjunct of its conclusion identifies the
matching set with the filter predicate over the index. -/
theorem onUpdateOSX_update_decision (index : List Release) (fullUrl p t q : String)
    (ht : t ≠ "") (hp : p ≠ "") (hd : Platforms.detect p = some q) :
    (Versions.filterQ index ⟨">=" ++ t, some "*", some q⟩ = [] →
      onUpdateOSX index fullUrl p t = .ok .noUpdates) ∧
    (∀ m, m ∈ Versions.filterQ index ⟨">=" ++ t, some "*", some q⟩ →
      (∀ r ∈ Versions.filterQ index ⟨">=" ++ t, some "*", some q⟩, r ≠ m →
        releaseCmp m r = .gt) →
      (m ∈ index ∧ Versions.matchesQ ⟨">=" ++ t, some "*", some q⟩ m = true) ∧
      (m.tag = t → onUpdateOSX index fullUrl p t = .ok .noUpdates) ∧
      (m.tag ≠ t → onUpdateOSX index fullUrl p t = .ok (.update
        (urlResolve fullUrl ("/download/version/" ++ m.tag ++ "/" ++ q ++ "?filetype=zip"))
        m.tag
        (notesMerge (Versions.filterQ index ⟨">=" ++ t, some "*", some q⟩).dropLast false)
        m.published_at.iso))) := by
  have ht' : (t == "") = false := beq_eq_false_iff_ne.mpr ht
  have hp' : (p == "") = false := beq_eq_false_iff_ne.mpr hp
  have hblock : onUpdateOSX index fullUrl p t =
      (match (Versions.filterQ index ⟨">=" ++ t, some "*", some q⟩).head? with
      | none => .ok .noUpdates
      | some latest =>
        if latest.tag == t then .ok .noUpdates
        else .ok (.update
          (urlResolve fullUrl ("/download/version/" ++ latest.tag ++ "/" ++ q
            ++ "?filetype=zip"))
          latest.tag
          (notesMerge (Versions.filterQ index ⟨">=" ++ t, some "*",
            some q⟩).dropLast false)
          latest.published_at.iso)) := by
    unfold onUpdateOSX
    rw [ht', hp']
    dsimp only
    rw [hd]
    simp only [Bool.false_eq_true, if_false, jsStr, Option.getD_some]
  constructor
  · intro hemp
    rw [hblock, hemp]
    rfl
  · intro m hm hstrict
    have hhead := head_filterQ_of_strict_max hm hstrict
    refine ⟨mem_filterQ.mp hm, ?_, ?_⟩
    · intro hmt
      rw [hblock, hhead]
      dsimp only
      rw [show (m.tag == t) = true from beq_iff_eq.mpr hmt]
      rfl
    · intro hmt
      rw [hblock, hhead]
      dsimp only
      rw [show (m.tag == t) = false from beq_eq_false_iff_ne.mpr hmt]
      rfl

/-- Claim C5 witness: querying version `1.0.0` for platform `osx` over
an index holding `2.0.0` and `1.0.0` answers JSON for `2.0.0` with its
download URL, tag, merged notes and publish timestamp. -/
theorem onUpdateOSX_update_decision_witness :
    onUpdateOSX [rx20, rx10] "http://h/update/osx/1.0.0" "osx" "1.0.0"
      = .ok (.update "http://h/download/version/2.0.0/osx?filetype=zip" "2.0.0" "A"
          "2016-02-01T00:00:00.000Z") := by
  have h := (onUpdateOSX_update_decision [rx20, rx10] "http://h/update/osx/1.0.0" "osx"
    "1.0.0" "osx" (by decide) (by decide) (by decide)).2 rx20 (by decide) (by decide)
  have h2 := h.2.2 (by decide)
  rw [h2]
  decide

/-- Claim C6 counterexample: with queried tag `1.0.0` absent from the
index `[2.0.0, 1.5.0]`, release `1.5.0` matches the query and does not
carry the queried tag, yet the response's merged notes are `"A"` —
release `2.0.0` alone — and omit `1.5.0`'s notes `"B"`: the notes do
not cover the matching releases minus the queried tag. -/
theorem onUpdateOSX_notes_omit_matching_release :
    onUpdateOSX [rx20, rx15] "http://h/update/osx/1.0.0" "osx" "1.0.0"
      = .ok (.update "http://h/download/version/2.0.0/osx?filetype=zip" "2.0.0" "A"
          "2016-02-01T00:00:00.000Z") ∧
    rx15 ∈ ([rx20, rx15] : List Release) ∧
    Versions.matchesQ ⟨">=" ++ "1.0.0", some "*", some "osx"⟩ rx15 = true ∧
    ¬ rx15.tag = "1.0.0" ∧
    rx15.notes = "B" ∧
    hasSub "A" "B" = false ∧
    notesMerge [rx20, rx15] false = "A\n\nB" := by decide

/-- Claim C6 (amended): the merged notes of an update response cover the
descending-ordered matching releases minus the *last* of them — the
lowest-ordered matching release — which equals "all matching releases
except the queried tag" only when the queried release is that minimum
(as it is whenever it is present in the matching set, being its
lowest element); when the queried tag is absent the lowest matching
release's notes are dropped instead. -/
theorem onUpdateOSX_notes_drop_last (index : List Release) (fullUrl p t u n ns d : String)
    (h : onUpdateOSX index fullUrl p t = .ok (.update u n ns d)) :
    ns = notesMerge
      (Versions.filterQ index ⟨">=" ++ t, some "*", Platforms.detect p⟩).dropLast false ∧
    ∃ hne : Versions.filterQ index ⟨">=" ++ t, some "*", Platforms.detect p⟩ ≠ [],
      ∀ r ∈ (Versions.filterQ index ⟨">=" ++ t, some "*", Platforms.detect p⟩).dropLast,
        NewerEq r
          ((Versions.filterQ index ⟨">=" ++ t, some "*", Platforms.detect p⟩).getLast hne) := by
  unfold onUpdateOSX at h
  rcases hcond : (t == "") with _ | _ <;> rw [hcond] at h
  case true => simp at h
  rcases hcond2 : (p == "") with _ | _ <;> rw [hcond2] at h
  case true => simp at h
  dsimp only at h
  rcases hh : (Versions.filterQ index ⟨">=" ++ t, some "*", Platforms.detect p⟩).head? with
    _ | latest <;> rw [hh] at h
  · simp at h
  · dsimp only at h
    rcases hlt : (latest.tag == t) with _ | _ <;> rw [hlt] at h
    case true => simp at h
    simp only [Bool.false_eq_true, if_false, Except.ok.injEq, OsxResponse.update.injEq] at h
    obtain ⟨-, -, hns, -⟩ := h
    have hne : Versions.filterQ index ⟨">=" ++ t, some "*", Platforms.detect p⟩ ≠ [] := by
      intro he
      rw [he] at hh
      simp at hh
    exact ⟨hns.symm, hne,
      dropLast_newerEq_getLast (sorted_filterQ index ⟨">=" ++ t, some "*",
        Platforms.detect p⟩) hne⟩

/-- Claim C6 witness (amended claim): over the index `[2.0.0, 1.0.0]`
with queried tag `1.0.0`, the response notes `"A"` are the merge of the
matching releases minus the last. -/
theorem onUpdateOSX_notes_drop_last_witness :
    "A" = notesMerge
      (Versions.filterQ [rx20, rx10] ⟨">=" ++ "1.0.0", some "*",
        Platforms.detect "osx"⟩).dropLast false :=
  (onUpdateOSX_notes_drop_last [rx20, rx10] "http://h/update/osx/1.0.0" "osx" "1.0.0"
    "http://h/download/version/2.0.0/osx?filetype=zip" "2.0.0" "A"
    "2016-02-01T00:00:00.000Z" (by decide)).1

/-! ### Claims C7, C8 — the Squirrel.Windows update feed -/

/-- Claim C7 counterexample: requesting the feed for platform `osx_64`
at version `1.0.0` over an index holding an osx-only `2.0.0` and a
Windows `1.0.0`: the served manifest comes from the Windows release,
which does not match the request's platform parameter, while the osx
release does match it — selection did not use the request's platform. -/
theorem onUpdateWin_ignores_platform_param :
    winSelect [rx20, rWin10] "1.0.0" = some rWin10 ∧
    Versions.matchesQ ⟨">=" ++ "1.0.0", some "*", Platforms.detect "osx_64"⟩ rWin10
      = false ∧
    Versions.matchesQ ⟨">=" ++ "1.0.0", some "*", Platforms.detect "osx_64"⟩ rx20 = true ∧
    onUpdateWin [rx20, rWin10] rdWin "http://h/update/osx_64/1.0.0/RELEASES" "osx_64"
        "1.0.0"
      = .ok ⟨55, "RELEASES",
          "HASH1 http://h/download/1.0.0/app-1.0.0-full.nupkg 1024"⟩ := by decide

/-- Claim C7 (amended): the `onUpdateWin` release selection filters the
releases at least the requested version against the *fixed* platform
`platforms.detect('win_32')` (nuts.js line 287); the request's platform
parameter is never read, so any two platform parameters yield the same
response. -/
theorem onUpdateWin_platform_hardcoded (index : List Release)
    (readAsset : Asset → Except JsError String) (fullUrl p1 p2 t : String) :
    onUpdateWin index readAsset fullUrl p1 t = onUpdateWin index readAsset fullUrl p2 t ∧
    winSelect index t
      = (Versions.filterQ index ⟨">=" ++ t, some "*", Platforms.detect "win_32"⟩).head? ∧
    Platforms.detect "win_32" = some Platforms.WINDOWS :=
  ⟨rfl, rfl, by decide⟩

/-- Claim C8: when the selected release's `RELEASES` manifest decodes,
the feed served is the re-encoding of the decoded entries with each
entry's filename rewritten to a fully-qualified URL through this
server's `/download/:tag/:filename` route, hash and size preserved
verbatim; the response is the attachment `RELEASES` with
`Content-Length` equal to the output's length, and the output's lines
are exactly hash, rewritten URL, size. -/
theorem onUpdateWin_rewrites (index : List Release)
    (readAsset : Asset → Except JsError String) (fullUrl pp t : String)
    (latest : Release) (a : Asset) (content : String) (entries : List WinEntry)
    (hsel : winSelect index t = some latest)
    (ha : latest.platforms.find? (fun x => x.filename == "RELEASES") = some a)
    (hrd : readAsset a = .ok content)
    (hparse : winParse content = .ok entries) :
    onUpdateWin index readAsset fullUrl pp t
      = .ok ⟨(winGenerate (entries.map (rewriteEntry fullUrl))).length, "RELEASES",
          winGenerate (entries.map (rewriteEntry fullUrl))⟩ ∧
    (∀ e ∈ entries, (rewriteEntry fullUrl e).hash = e.hash ∧
      (rewriteEntry fullUrl e).size = e.size ∧
      (rewriteEntry fullUrl e).filename
        = urlResolve fullUrl ("/download/" ++ e.semver ++ "/" ++ e.filename)) ∧
    winGenerate (entries.map (rewriteEntry fullUrl))
      = String.mk (joinWith ['\n'] (entries.map (fun e => e.hash.data ++ [' ']
          ++ (urlResolve fullUrl ("/download/" ++ e.semver ++ "/" ++ e.filename)).data
          ++ [' '] ++ (Nat.repr e.size).data))) := by
  refine ⟨?_, ?_, ?_⟩
  · unfold onUpdateWin
    rw [hsel]
    dsimp only
    rw [ha]
    dsimp only
    rw [hrd]
    dsimp only
    rw [hparse]
  · intro e he
    exact ⟨rfl, rfl, rfl⟩
  · unfold winGenerate
    rw [List.map_map]
    rfl

/-- Claim C8 witness: the concrete manifest `HASH1
app-1.0.0-full.nupkg 1024` of the Windows release is served with the
entry's filename rewritten through the proxy, hash and size intact, 55
bytes long. -/
theorem onUpdateWin_rewrites_witness :
    onUpdateWin [rx20, rWin10] rdWin "http://h/update/win_32/1.0.0/RELEASES" "win32"
        "1.0.0"
      = .ok ⟨55, "RELEASES",
          "HASH1 http://h/download/1.0.0/app-1.0.0-full.nupkg 1024"⟩ := by
  have h := (onUpdateWin_rewrites [rx20, rWin10] rdWin
    "http://h/update/win_32/1.0.0/RELEASES" "win32" "1.0.0" rWin10
    ⟨"winrel", "RELEASES", 55⟩ "HASH1 app-1.0.0-full.nupkg 1024"
    [⟨"HASH1", "app-1.0.0-full.nupkg", 1024, "1.0.0"⟩]
    (by decide) (by decide) (by decide) (by decide)).1
  rw [h]
  decide

end Nuts
